import Mathlib

/-!
Verification of src/extract_stores.py, a sitemap-driven store-page scraper.

The development shallowly embeds the pure content of the script:

* `extract_text`-style regex searches are embedded as character-list
  scanners that implement the leftmost, lazy (non-greedy) semantics of the
  exact patterns that appear in the source (the patterns all have the
  shapes `LIT(.*?)LIT`, `LIT.*?>LIT(.*?)LIT`, `LIT"([^"]+)"`, `/(\d+)$`, or
  the `findall` pair pattern `<dt>(.*?)</dt>\s*<dd>(.*?)</dd>`);
* tag stripping `re.sub('<[^<]+?>', '', s)`, whitespace collapsing
  `re.sub(r'\s+', ' ', s)` and `str.strip()` are embedded directly;
* `float(...)` is embedded as a parser for Python's float-literal grammar
  over `ℚ` (exact decimal reading; the claims never depend on binary
  floating-point rounding);
* exceptions caught by the `except Exception` handler in
  `get_store_details` are embedded as the function returning `none`;
* the driver `main` is embedded as `runMain` over an environment that
  abstracts the file system, the XML parser result and the network, and
  `sorted(...)`'s `TypeError` on `None` keys is an `Except.error` result.

Machine-checked claims C1 through C10 follow the definitions.
-/

set_option maxRecDepth 100000

namespace TargetStores

/-- Whitespace per Python's `str.strip` and `\s` (ASCII part: space, tab,
newline, carriage return, vertical tab, form feed). -/
def pyIsSpace (c : Char) : Bool :=
  c = ' ' || c = '\t' || c = '\n' || c = '\r' || c = Char.ofNat 11 || c = Char.ofNat 12

/-- Python `str.strip()`: drop leading and trailing whitespace. -/
def pyStrip (cs : List Char) : List Char :=
  ((cs.dropWhile pyIsSpace).reverse.dropWhile pyIsSpace).reverse

/-- Helper for `collapseWs`; the flag records whether the previous
character was whitespace (so a whitespace run emits one space total). -/
def collapseAux : Bool → List Char → List Char
  | _, [] => []
  | prevWs, c :: rest =>
    if pyIsSpace c then
      if prevWs then collapseAux true rest else ' ' :: collapseAux true rest
    else c :: collapseAux false rest

/-- Python `re.sub(r'\s+', ' ', s)`: every maximal whitespace run becomes a
single space. -/
def collapseWs (cs : List Char) : List Char :=
  collapseAux false cs

/-- Does a match of `<[^<]+?>` start at the head of `cs`?  Such a match is
a `<`, then the shortest nonempty run of non-`<` characters ending just
before a `>`; i.e. within the maximal run of non-`<` characters after the
`<` there is a `>` at offset at least 1. -/
def tagAtHead (cs : List Char) : Bool :=
  match cs with
  | '<' :: rest =>
    ((((rest.takeWhile (fun c => c ≠ '<')).drop 1).findIdx? (fun c => c = '>'))).isSome
  | _ => false

/-- Does any match of `<[^<]+?>` start anywhere in `cs`? -/
def hasTag : List Char → Bool
  | [] => false
  | c :: rest => tagAtHead (c :: rest) || hasTag rest

/-- Worker for `removeTags`.  State `none`: scanning normally.  State
`some buf`: a `<` has been read and `buf` holds (reversed) the non-`<`
characters read since; the pending match closes at the first `>` read
after at least one such character (the lazy `[^<]+?`), is abandoned and
flushed literally at the next `<` or at end of input.  Matches of
`<[^<]+?>` start only at `<`, and `buf` never contains `<`, so flushing
the buffer verbatim is faithful to `re.sub`'s non-overlapping
left-to-right scan. -/
def removeTagsAux : Option (List Char) → List Char → List Char
  | none, [] => []
  | some buf, [] => '<' :: buf.reverse
  | none, c :: rest =>
    if c = '<' then removeTagsAux (some []) rest else c :: removeTagsAux none rest
  | some buf, c :: rest =>
    if c = '<' then ('<' :: buf.reverse) ++ removeTagsAux (some []) rest
    else if c = '>' ∧ buf ≠ [] then removeTagsAux none rest
    else removeTagsAux (some (c :: buf)) rest

/-- Python `re.sub('<[^<]+?>', '', s)`: delete every (leftmost,
non-overlapping) tag-shaped span. -/
def removeTags (cs : List Char) : List Char :=
  removeTagsAux none cs

/-- The cleaning applied by `extract_text` when `clean=True` (source lines
44-45): strip tags, strip whitespace, collapse whitespace runs. -/
def clean_html_text (cs : List Char) : List Char :=
  collapseWs (pyStrip (removeTags cs))

/-- Split `cs` at the first occurrence of `pat`: returns
`some (pre, post)` with `cs = pre ++ pat ++ post` for the leftmost
occurrence, `none` if `pat` does not occur. -/
def splitOnFirst (pat : List Char) : List Char → Option (List Char × List Char)
  | [] => if pat.isEmpty then some ([], []) else none
  | c :: rest =>
    if pat.isPrefixOf (c :: rest) then some ([], (c :: rest).drop pat.length)
    else
      match splitOnFirst pat rest with
      | some (pre, post) => some (c :: pre, post)
      | none => none

/-- Embedding of `re.search(l₁ + '(.*?)' + l₂, s, re.DOTALL)`, group 1: the
match anchors at the first occurrence of `l₁`, and the lazy capture runs to
the first occurrence of `l₂` after it.  (If no `l₂` follows the first
`l₁`, none follows any later `l₁` either, so the whole search fails.) -/
def searchLazyCap (l₁ l₂ : List Char) (cs : List Char) : Option (List Char) :=
  (splitOnFirst l₁ cs).bind fun pr => (splitOnFirst l₂ pr.2).map Prod.fst

/-- Worker for `searchBlockCap`: after the opening literal, the lazy
`.*?>` tries each later `>` in turn; at each, `lead` must follow
immediately and the capture runs to the first `close` after that. -/
def scanGtCap (lead close : List Char) : List Char → Option (List Char)
  | [] => none
  | c :: rest =>
    if c = '>' ∧ lead.isPrefixOf rest then
      match splitOnFirst close (rest.drop lead.length) with
      | some (cap, _) => some cap
      | none => scanGtCap lead close rest
    else scanGtCap lead close rest

/-- Embedding of `re.search(l₁ + '.*?>' + lead + '(.*?)' + close, s,
re.DOTALL)`, group 1.  Any successful continuation from a later occurrence
of `l₁` is also a successful continuation from the first one, so only the
first occurrence of `l₁` needs to be tried. -/
def searchBlockCap (l₁ lead close : List Char) (cs : List Char) : Option (List Char) :=
  (splitOnFirst l₁ cs).bind fun pr => scanGtCap lead close pr.2

/-- Embedding of `re.search(lit + '([^"]+)"', s)`, group 1, where `lit`
ends in `"` (the `data-lat="..."` / `data-lng="..."` patterns): scan
occurrences of `lit` left to right; at each, the greedy `[^"]+` takes the
run up to the next `"`, which must be nonempty and actually terminated by
a `"`. -/
def searchAttr (lit : List Char) : List Char → Option (List Char)
  | [] => none
  | c :: rest =>
    if lit.isPrefixOf (c :: rest) then
      let after := (c :: rest).drop lit.length
      let run := after.takeWhile (fun ch => ch ≠ '"')
      if run ≠ [] ∧ (after.drop run.length).head? = some '"' then some run
      else searchAttr lit rest
    else searchAttr lit rest

/-- Embedding of `re.search(r'/(\d+)$', url)`, group 1: a `/` followed by
one or more digits running to the very end of the string. -/
def locIdScan : List Char → Option (List Char)
  | [] => none
  | c :: rest =>
    if c = '/' ∧ rest ≠ [] ∧ rest.all Char.isDigit then some rest
    else locIdScan rest

/-- Result of Python's `float(...)`: a finite value (read exactly into
`ℚ`; the claims never depend on binary rounding), an infinity, or a NaN. -/
inductive PyFloat where
  | finite (q : ℚ)
  | inf
  | ninf
  | nan
deriving DecidableEq

/-- Consume a run of digits with single underscores allowed between
digits (Python 3.6+ numeric literals).  Returns the accumulated value,
the number of digits consumed, and the rest.  A `_` not followed by a
digit is left unconsumed (so the overall parse then fails on leftovers,
as `float('1_')` does). -/
def digitsUnd : Nat → Nat → List Char → Nat × Nat × List Char
  | acc, n, [] => (acc, n, [])
  | acc, n, c :: rest =>
    if c.isDigit then digitsUnd (acc * 10 + (c.toNat - 48)) (n + 1) rest
    else if c = '_' then
      match rest with
      | d :: rest2 =>
        if d.isDigit then digitsUnd (acc * 10 + (d.toNat - 48)) (n + 1) rest2
        else (acc, n, c :: rest)
      | [] => (acc, n, [c])
    else (acc, n, c :: rest)

/-- Consume a Python `digitpart` (must start with a digit). -/
def takeDigitPart (cs : List Char) : Nat × Nat × List Char :=
  match cs with
  | c :: rest => if c.isDigit then digitsUnd (c.toNat - 48) 1 rest else (0, 0, cs)
  | [] => (0, 0, [])

/-- Parse an unsigned Python float literal (`digitpart? ('.' digitpart?)?
exponent?`, at least one mantissa digit, nothing left over), reading the
decimal exactly as a numerator/denominator pair (kept in `ℕ` so the final
value is produced by a single `mkRat`). -/
def parseUnsigned (cs : List Char) : Option (Nat × Nat) :=
  let ipr := takeDigitPart cs
  let fpr : Nat × Nat × List Char :=
    match ipr.2.2 with
    | '.' :: r => takeDigitPart r
    | _ => (0, 0, ipr.2.2)
  let mantDigits := ipr.2.1 + fpr.2.1
  let mant : Nat := ipr.1 * 10 ^ fpr.2.1 + fpr.1
  match fpr.2.2 with
  | [] => if mantDigits = 0 then none else some (mant, 10 ^ fpr.2.1)
  | e :: r3 =>
    if (e = 'e' ∨ e = 'E') ∧ mantDigits ≠ 0 then
      let signedExp : Bool × List Char :=
        match r3 with
        | '+' :: r4 => (false, r4)
        | '-' :: r4 => (true, r4)
        | r4 => (false, r4)
      let epr := takeDigitPart signedExp.2
      if epr.2.1 = 0 ∨ epr.2.2 ≠ [] then none
      else
        some
          (if signedExp.1 then (mant, 10 ^ fpr.2.1 * 10 ^ epr.1)
           else (mant * 10 ^ epr.1, 10 ^ fpr.2.1))
    else none

/-- Python `float(s)`: strip whitespace, optional sign, then an
(case-insensitive) `inf`/`infinity`/`nan` keyword or a numeric literal;
`none` models the `ValueError` raise. -/
def parsePyFloat (s : String) : Option PyFloat :=
  let cs := pyStrip s.toList
  let signed : Bool × List Char :=
    match cs with
    | '+' :: r => (false, r)
    | '-' :: r => (true, r)
    | r => (false, r)
  let low := signed.2.map Char.toLower
  if low = "inf".toList ∨ low = "infinity".toList then
    some (if signed.1 then PyFloat.ninf else PyFloat.inf)
  else if low = "nan".toList then some PyFloat.nan
  else
    match parseUnsigned signed.2 with
    | some nd =>
      some (PyFloat.finite (mkRat (if signed.1 then -(nd.1 : Int) else (nd.1 : Int)) nd.2))
    | none => none

/-- One emitted trading-hours entry (source lines 74-78). -/
structure TradingHour where
  typename : String
  hours : String
  weekDay : String
deriving DecidableEq

/-- The record assembled in `get_store_details` (source lines 87-102). -/
structure StoreRecord where
  locationId : Option String
  publicName : String
  phoneNumber : Option String
  address1 : Option String
  address2 : Option String
  address3 : Option String
  city : Option String
  state : Option String
  postcode : Option String
  latitude : Option PyFloat
  longitude : Option PyFloat
  tradingHours : List TradingHour
  typename : String
  url : String
deriving DecidableEq

/-- The `extract_text` post-processing for `clean=True`: the capture is
stripped (line 41), then tags are removed, it is stripped again and
whitespace is collapsed (lines 44-45). -/
def extractClean (cap : Option (List Char)) : Option String :=
  cap.map fun cs => String.mk (clean_html_text (pyStrip cs))

/-- The `extract_text` post-processing for `clean=False`: the capture is
only stripped (line 41). -/
def extractRaw (cap : Option (List Char)) : Option String :=
  cap.map fun cs => String.mk (pyStrip cs)

/-- The corrupted en-dash sequence that the source embeds literally in the
`publicName` pattern (UTF-8 bytes of U+2013 decoded as cp1252, i.e. the
three characters U+00E2, U+20AC, U+201C), with the surrounding spaces of
the literal `Target â€“ `. -/
def targetLead : List Char :=
  "Target \u00E2\u20AC\u201C ".toList

/-- The `public_name` (line 49): pattern
`<h4 class="store-heading".*?>Target â€“ (.*?)</h4>`, cleaned. -/
def pubNameOf (html : String) : Option String :=
  extractClean (searchBlockCap "<h4 class=\"store-heading\"".toList targetLead "</h4>".toList html.toList)

/-- The `phone_number` (line 50): pattern `<span itemprop="telephone">(.*?)</span>`, cleaned. -/
def phoneOf (html : String) : Option String :=
  extractClean (searchLazyCap "<span itemprop=\"telephone\">".toList "</span>".toList html.toList)

/-- The `latitude` as text (line 51): pattern `data-lat="([^"]+)"`, cleaned. -/
def latOf (html : String) : Option String :=
  extractClean (searchAttr "data-lat=\"".toList html.toList)

/-- The `longitude` as text (line 52): pattern `data-lng="([^"]+)"`, cleaned. -/
def lngOf (html : String) : Option String :=
  extractClean (searchAttr "data-lng=\"".toList html.toList)

/-- The `address_block_html` (line 55): pattern
`<address itemprop="address".*?>(.*?)</address>`, `clean=False`. -/
def addrBlockOf (html : String) : Option String :=
  extractRaw (searchBlockCap "<address itemprop=\"address\"".toList [] "</address>".toList html.toList)

/-- The `street_address_html` (line 60), searched inside the address block:
pattern `<span itemprop="streetAddress">(.*?)</span>`, `clean=False`. -/
def streetOf (block : String) : Option String :=
  extractRaw (searchLazyCap "<span itemprop=\"streetAddress\">".toList "</span>".toList block.toList)

/-- The `city` (line 63), searched inside the address block. -/
def cityOf (block : String) : Option String :=
  extractClean (searchLazyCap "<span itemprop=\"addressLocality\">".toList "</span>".toList block.toList)

/-- The `state` (line 64), searched inside the address block. -/
def stateOf (block : String) : Option String :=
  extractClean (searchLazyCap "<span itemprop=\"addressRegion\">".toList "</span>".toList block.toList)

/-- The `postcode` (line 65), searched inside the address block. -/
def postcodeOf (block : String) : Option String :=
  extractClean (searchLazyCap "<span itemprop=\"postalCode\">".toList "</span>".toList block.toList)

/-- The `hours_block_html` (line 69): pattern `<div class="store-hours">(.*?)</div>`, `clean=False`. -/
def hoursBlockOf (html : String) : Option String :=
  extractRaw (searchLazyCap "<div class=\"store-hours\">".toList "</div>".toList html.toList)

/-- Attempt of the pair pattern `(.*?)</dt>\s*<dd>(.*?)</dd>` on the text
immediately following a `<dt>`: the lazy first capture tries each `</dt>`
occurrence in turn (accumulating skipped text, including earlier `</dt>`s,
into the capture); after a viable `</dt>`, the greedy `\s*` must be
followed by `<dd>` (whitespace is never `<`, so only the maximal skip can
match), and the lazy second capture runs to the first `</dd>`.  When no
`</dd>` exists after a matched `<dd>`, none exists after any later split
either, so the whole attempt fails.  Returns the two captures and the
text after the match. -/
def dtPairFrom : List Char → Option (List Char × List Char × List Char)
  | [] => none
  | c :: rest =>
    if "</dt>".toList.isPrefixOf (c :: rest) then
      let post2 := (rest.drop 4).dropWhile pyIsSpace
      if "<dd>".toList.isPrefixOf post2 then
        match splitOnFirst "</dd>".toList (post2.drop 4) with
        | some (cap2, after) => some ([], cap2, after)
        | none => none
      else
        (dtPairFrom rest).map fun t => (c :: t.1, t.2.1, t.2.2)
    else
      (dtPairFrom rest).map fun t => (c :: t.1, t.2.1, t.2.2)

/-- Fuel-driven scan for `re.findall(r'<dt>(.*?)</dt>\s*<dd>(.*?)</dd>',
s, re.DOTALL)`: non-overlapping leftmost matches, scanning left to right
and resuming after each match.  Each recursive call works on a strictly
shorter suffix, so fuel `length + 1` always suffices. -/
def findPairsAux : Nat → List Char → List (List Char × List Char)
  | 0, _ => []
  | _ + 1, [] => []
  | fuel + 1, c :: rest =>
    if "<dt>".toList.isPrefixOf (c :: rest) then
      match dtPairFrom (rest.drop 3) with
      | some (cap1, cap2, after) => (cap1, cap2) :: findPairsAux fuel after
      | none => findPairsAux fuel rest
    else findPairsAux fuel rest

/-- All day/hours capture pairs found by `re.findall` (line 72). -/
def findPairs (cs : List Char) : List (List Char × List Char) :=
  findPairsAux (cs.length + 1) cs

/-- The truthiness guard Python applies to extracted block strings:
`if block:` is false for `None` and for the empty string. -/
def truthy (s : Option String) : Bool :=
  match s with
  | none => false
  | some str => str ≠ ""

/-- The day/hours pairs of the page (lines 68-72): `findall` runs only
when the hours block is truthy. -/
def pairsOf (html : String) : List (List Char × List Char) :=
  match hoursBlockOf html with
  | some b => if b = "" then [] else findPairs b.toList
  | none => []

/-- One trading-hours entry from a capture pair (lines 74-78): constant
tag, `hours.strip()`, `day.strip().upper()` (ASCII upper case; the pages
involved are ASCII). -/
def mkTradingHour (p : List Char × List Char) : TradingHour :=
  ⟨"TradingHour", String.mk (pyStrip p.2), String.mk ((pyStrip p.1).map Char.toUpper)⟩

/-- The `trading_hours_list` (lines 68-78). -/
def tradingHoursOf (html : String) : List TradingHour :=
  (pairsOf html).map mkTradingHour

/-- The `street_address_html` at the function level (lines 58-60): searched
only inside a truthy address block. -/
def streetFieldOf (html : String) : Option String :=
  match addrBlockOf html with
  | some b => if b = "" then none else streetOf b
  | none => none

/-- Line 61 calls `extract_text(r'.*', street_address_html)` whenever the
street capture is truthy; that pattern has no group 1, so `match.group(1)`
raises `IndexError`, which propagates to the `except Exception` handler of
`get_store_details`.  This predicate is true exactly when that raise
happens. -/
def streetRaises (html : String) : Bool :=
  match streetFieldOf html with
  | some s => s ≠ ""
  | none => false

/-- The `city` at the function level (lines 58, 63). -/
def cityFieldOf (html : String) : Option String :=
  match addrBlockOf html with
  | some b => if b = "" then none else cityOf b
  | none => none

/-- The `state` at the function level (lines 58, 64). -/
def stateFieldOf (html : String) : Option String :=
  match addrBlockOf html with
  | some b => if b = "" then none else stateOf b
  | none => none

/-- The `postcode` at the function level (lines 58, 65). -/
def postcodeFieldOf (html : String) : Option String :=
  match addrBlockOf html with
  | some b => if b = "" then none else postcodeOf b
  | none => none

/-- The `locationId` (lines 81-82). -/
def locIdOf (url : String) : Option String :=
  (locIdScan url.toList).map String.mk

/-- The coordinate conversion `float(x) if x else None` (lines 97-98):
`ok none` for an absent or empty string, `ok (some v)` for a parseable
one, `error` for the `ValueError` that the outer handler catches. -/
def pyFloatField : Option String → Except Unit (Option PyFloat)
  | none => Except.ok none
  | some s =>
    if s = "" then Except.ok none
    else
      match parsePyFloat s with
      | some v => Except.ok (some v)
      | none => Except.error ()

/-- The record built on lines 87-102: `address1` is `none` in every
surviving execution (see `streetRaises`), `address2`/`address3` are the
constant `None`s of lines 92-93, `typename` is the constant of line 100. -/
def mkStore (html url nm : String) (la lo : Option PyFloat) : StoreRecord :=
  { locationId := locIdOf url
    publicName := nm
    phoneNumber := phoneOf html
    address1 := none
    address2 := none
    address3 := none
    city := cityFieldOf html
    state := stateFieldOf html
    postcode := postcodeFieldOf html
    latitude := la
    longitude := lo
    tradingHours := tradingHoursOf html
    typename := "Location"
    url := url }

/-- The extraction part of `get_store_details` (lines 36-111) as a
function of the already-fetched page text: `none` covers both the
explicit `return None` for a falsy `public_name` (lines 84-85) and every
exception swallowed by the `except Exception` handler (lines 109-111),
namely the `IndexError` of line 61 and the `ValueError`s of lines
97-98. -/
def storeFromHtml (html url : String) : Option StoreRecord :=
  if streetRaises html then none
  else
    match pubNameOf html with
    | none => none
    | some nm =>
      if nm = "" then none
      else
        match pyFloatField (latOf html), pyFloatField (lngOf html) with
        | Except.ok la, Except.ok lo => some (mkStore html url nm la lo)
        | _, _ => none

/-- The `get_store_details` (lines 27-111): the fetch (modelled as an oracle
`fetch`; `none` covers `URLError`/`HTTPError` and any other fetch
exception, all caught on lines 106-111) followed by the extraction. -/
def get_store_details (fetch : String → Option String) (url : String) : Option StoreRecord :=
  (fetch url).bind fun html => storeFromHtml html url

/-- The `extract_urls_from_sitemap` (lines 14-25) over the outcome of
`ET.parse`/`findall` (standard-library behaviour abstracted as an
`Except` input): the `<loc>` texts in document order on success, and on
any parse exception the handler prints a diagnostic and returns the empty
list. -/
def extract_urls_from_sitemap (parsed : Except String (List String)) : List String :=
  match parsed with
  | Except.ok urls => urls
  | Except.error _ => []

/-- Code-point comparison of strings as lists of characters, matching
Python's `str.__lt__`-based ordering used by `sorted`. -/
def charListLe : List Char → List Char → Bool
  | [], _ => true
  | _ :: _, [] => false
  | a :: as, b :: bs => if a = b then charListLe as bs else decide (a < b)

/-- Stable insertion of `a` after every already-placed element whose key
is not greater, preserving input order among equal keys as Python's
stable sort does. -/
def insertLe (le : StoreRecord → StoreRecord → Bool) (a : StoreRecord) :
    List StoreRecord → List StoreRecord
  | [] => [a]
  | b :: rest => if le b a then b :: insertLe le a rest else a :: b :: rest

/-- The comparison `sorted` applies through
`key=lambda x: x.get('locationId', '')`.  The `locationId` key is always
present in the dict built on lines 87-102, so the `''` default is dead
code and a `None` value is used as the key itself. -/
def storeKeyLe (a b : StoreRecord) : Bool :=
  charListLe (a.locationId.getD "").toList (b.locationId.getD "").toList

/-- The `sorted(all_stores, key=lambda x: x.get('locationId', ''))`
(line 155).  Python 3 cannot order `None` against a string (or another
`None`): whenever at least two records are sorted and any key is `None`,
the comparison raises `TypeError` (modelled as `Except.error`); with all
keys present the result is the stable ascending order by code-point
string comparison. -/
def sortStores (l : List StoreRecord) : Except String (List StoreRecord) :=
  if 2 ≤ l.length ∧ l.any (fun r => r.locationId.isNone) then
    Except.error "TypeError"
  else
    Except.ok (l.foldl (fun acc r => insertLe storeKeyLe r acc) [])

/-- Environment of one run of `main`: whether the sitemap file exists,
what the XML parse of it yields, and what each HTTP fetch returns. -/
structure Env where
  fileExists : Bool
  parse : Except String (List String)
  fetch : String → Option String

/-- Observable outcome of `main`: process exit code, the URLs fetched (in
order), the JSON-serialized record list on stdout (`none` when the
process aborted or crashed before printing), and the `(index, url)`
failure list reported on stderr. -/
structure RunResult where
  exitCode : Nat
  fetched : List String
  output : Option (List StoreRecord)
  errors : List (Nat × String)
deriving DecidableEq

/-- The `main` (lines 113-156): abort with exit status 1 before any fetch if
the sitemap file is missing; otherwise fetch and extract every URL in
order, collecting successes and 1-based failure indices; finally sort and
print.  An uncaught `TypeError` from `sorted` ends the process with a
traceback and exit status 1, with nothing on stdout. -/
def runMain (env : Env) : RunResult :=
  if env.fileExists then
    let urls := extract_urls_from_sitemap env.parse
    let results := urls.map fun u => (u, get_store_details env.fetch u)
    let stores := results.filterMap fun r => r.2
    let errs := results.enum.filterMap fun p =>
      match p.2.2 with
      | some _ => none
      | none => some (p.1 + 1, p.2.1)
    match sortStores stores with
    | Except.ok sortedStores => ⟨0, urls, some sortedStores, errs⟩
    | Except.error _ => ⟨1, urls, none, errs⟩
  else ⟨1, [], none, []⟩

/-! ### Concrete example inputs used by witnesses and counterexamples -/

/-- A representative store page exercising every extraction rule except
the street-address line (whose presence triggers the line-61 raise). -/
def exStore : String :=
  "<html><h4 class=\"store-heading\" data-x=\"1\">Target â€“  Chadstone <b>Store</b>\n</h4><span itemprop=\"telephone\"> (03) 1234 5678 </span><div data-lat=\"-33.87\" data-lng=\"151.21\"></div><address itemprop=\"address\"><span itemprop=\"addressLocality\">Chadstone</span><span itemprop=\"addressRegion\">VIC</span><span itemprop=\"postalCode\">3148</span></address><div class=\"store-hours\"><dl><dt>Wednesday</dt> <dd>9am - 5pm</dd><dt>mon</dt>\n<dd> closed </dd></dl></div></html>"

/-- Source URL for `exStore`. -/
def exUrl : String := "https://www.target.com.au/stores/00042"

/-- The record `get_store_details` extracts from `exStore`. -/
def exRec : StoreRecord :=
  mkStore exStore exUrl "Chadstone Store"
    (some (PyFloat.finite (mkRat (-3387) 100))) (some (PyFloat.finite (mkRat 15121 100)))

/-- Evaluation fact shared by several witnesses below. -/
theorem exStore_eval : storeFromHtml exStore exUrl = some exRec := by decide

/-! ### Structural facts about the extractor -/

/-- Inversion: a produced record always comes from the success path of
`storeFromHtml`, so each field is the corresponding extractor output. -/
theorem storeFromHtml_inv (html url : String) (r : StoreRecord)
    (h : storeFromHtml html url = some r) :
    ∃ nm la lo, pubNameOf html = some nm ∧ nm ≠ "" ∧
      pyFloatField (latOf html) = Except.ok la ∧
      pyFloatField (lngOf html) = Except.ok lo ∧
      streetRaises html = false ∧ r = mkStore html url nm la lo := by
  unfold storeFromHtml at h
  cases hs : streetRaises html with
  | true => rw [hs] at h; simp at h
  | false =>
    rw [hs] at h
    simp only [Bool.false_eq_true, if_false] at h
    cases hpn : pubNameOf html with
    | none => rw [hpn] at h; simp at h
    | some nm =>
      rw [hpn] at h
      dsimp only at h
      by_cases hnm : nm = ""
      · rw [if_pos hnm] at h; simp at h
      · rw [if_neg hnm] at h
        cases hla : pyFloatField (latOf html) with
        | error e => rw [hla] at h; simp at h
        | ok la =>
          cases hlo : pyFloatField (lngOf html) with
          | error e => rw [hla, hlo] at h; simp at h
          | ok lo =>
            rw [hla, hlo] at h
            simp only [Option.some.injEq] at h
            exact ⟨nm, la, lo, rfl, hnm, rfl, rfl, rfl, h.symm⟩

/-! ### C1 -/

/-- A record as produced for a page whose URL ends in `/0005`. -/
def rec0005 : StoreRecord :=
  ⟨some "0005", "Store A", none, none, none, none, none, none, none, none, none, [],
    "Location", "https://x/stores/0005"⟩

/-- A record as produced for a page whose URL does not end in digits, so
its `locationId` is `None`. -/
def recNoId : StoreRecord :=
  ⟨none, "Store B", none, none, none, none, none, none, none, none, none, [],
    "Location", "https://x/stores/"⟩

/-- A record as produced for a page whose URL ends in `/0002`. -/
def rec0002 : StoreRecord :=
  ⟨some "0002", "Store C", none, none, none, none, none, none, none, none, none, [],
    "Location", "https://x/stores/0002"⟩

/-- C1: the claim says records with `locationId` values
`["0005", null, "0002"]` are emitted in the order `[null, "0002", "0005"]`
with null treated as the empty string.  In fact the sort key is
`x.get('locationId', '')` with the key always present, so the `''`
default is dead code, `None` is compared against strings, and `sorted`
raises `TypeError`: the program crashes with no JSON output.  With no
null id present the ascending opaque-string sort does happen. -/
theorem C1_sort_crashes_on_null_locationId :
    sortStores [rec0005, recNoId, rec0002] = Except.error "TypeError" ∧
    sortStores [rec0005, rec0002] = Except.ok [rec0002, rec0005] := by
  exact ⟨rfl, rfl⟩

/-! ### C3 -/

/-- A page with a derivable `publicName` and a non-empty
`streetAddress` span inside the address block. -/
def c3Html : String :=
  "<h4 class=\"store-heading\">Target â€“ Bourke St</h4><address itemprop=\"address\"><span itemprop=\"streetAddress\">260 <strong>Bourke St</strong></span></address>"

/-- C3: the claim says extraction returns "not found" if and only if
`publicName` cannot be derived.  The only-if direction fails: on a page
with a derivable name and a non-empty street-address span, line 61 calls
`extract_text(r'.*', ...)` whose default `group=1` does not exist, the
`IndexError` reaches the `except Exception` handler, and
`get_store_details` returns `None` anyway. -/
theorem C3_not_found_despite_name :
    pubNameOf c3Html = some "Bourke St" ∧ streetRaises c3Html = true ∧
    storeFromHtml c3Html "https://x/stores/0931" = none := by
  exact ⟨by decide, by decide, by decide⟩

/-! ### C2 -/

/-- A page with a derivable name whose `data-lat` value is not numeric. -/
def c2Html : String :=
  "<h4 class=\"store-heading\">Target â€“ Richmond</h4><div data-lat=\"abc\" data-lng=\"151.21\"></div>"

/-- C2 counterexample: the claim says a present-but-non-numeric
coordinate is surfaced as null and the record is still produced when
`publicName` is derivable.  In fact `float('abc')` raises, the handler
returns `None`, and no record is produced. -/
theorem C2_cex_record_dropped_on_bad_float :
    pubNameOf c2Html = some "Richmond" ∧ latOf c2Html = some "abc" ∧
    storeFromHtml c2Html "https://x/stores/3121" = none := by
  exact ⟨by decide, by decide, by decide⟩

/-- C2 amended: a present, non-empty, unparseable text for either
coordinate (`data-lat` on line 97 or `data-lng` on line 98) makes the
extraction of that URL fail as a whole (the `ValueError` is caught by
the per-URL handler and `None` is returned, so the run continues); the
coordinate is not surfaced as null. -/
theorem C2_amended_bad_float_drops_record (html url s : String)
    (hl : latOf html = some s ∨ lngOf html = some s) (hne : s ≠ "")
    (hp : parsePyFloat s = none) :
    storeFromHtml html url = none := by
  have hfield : pyFloatField (latOf html) = Except.error () ∨
      pyFloatField (lngOf html) = Except.error () := by
    rcases hl with h | h
    · left; rw [h]; simp [pyFloatField, hne, hp]
    · right; rw [h]; simp [pyFloatField, hne, hp]
  unfold storeFromHtml
  cases hs : streetRaises html with
  | true => simp
  | false =>
    simp only [Bool.false_eq_true, if_false]
    cases pubNameOf html with
    | none => rfl
    | some nm =>
      dsimp only
      by_cases hnm : nm = ""
      · rw [if_pos hnm]
      · rw [if_neg hnm]
        rcases hfield with hf | hf
        · rw [hf]
        · rw [hf]
          cases pyFloatField (latOf html) <;> rfl

/-- A page with a derivable name, a numeric `data-lat` and a
non-numeric `data-lng`. -/
def c2bHtml : String :=
  "<h4 class=\"store-heading\">Target â€“ Epping</h4><div data-lat=\"-37.65\" data-lng=\"abc\"></div>"

/-- C2 witness: the amended statement at concrete pages, once with the
bad latitude of `c2Html` and once with the bad longitude of `c2bHtml`. -/
theorem C2_amended_witness :
    latOf c2Html = some "abc" ∧ lngOf c2bHtml = some "abc" ∧ parsePyFloat "abc" = none ∧
    storeFromHtml c2Html "https://x/stores/3121" = none ∧
    storeFromHtml c2bHtml "https://x/stores/3076" = none := by
  exact ⟨by decide, by decide, by decide,
    C2_amended_bad_float_drops_record c2Html "https://x/stores/3121" "abc"
      (Or.inl (by decide)) (by decide) (by decide),
    C2_amended_bad_float_drops_record c2bHtml "https://x/stores/3076" "abc"
      (Or.inr (by decide)) (by decide) (by decide)⟩

/-! ### C4 -/

/-- Modelled from the claim's words, for comparison with the code's
`locIdOf`: "the trailing run of digits at the end of the URL path, null
when the URL does not end in digits" (the maximal all-digit suffix of the
URL, `none` when that suffix is empty). -/
def claimTrailingDigits (url : String) : Option String :=
  let t := (url.toList.reverse.takeWhile Char.isDigit).reverse
  if t = [] then none else some (String.mk t)

/-- C4 counterexample: `https://example.com/stores/x00042` ends in the
digit run `00042`, so the claim makes `locationId` `"00042"`; the code's
pattern `/(\d+)$` also demands a `/` right before the digits and yields
null. -/
theorem C4_cex_trailing_digits_need_slash :
    claimTrailingDigits "https://example.com/stores/x00042" = some "00042" ∧
    locIdOf "https://example.com/stores/x00042" = none := by
  exact ⟨rfl, rfl⟩

/-- Characterization of the `/(\d+)$` search: it succeeds with capture
`d` exactly when `d` is a nonempty all-digit suffix immediately preceded
by a `/`. -/
theorem locIdScan_eq_some_iff (cs d : List Char) :
    locIdScan cs = some d ↔
      d ≠ [] ∧ d.all Char.isDigit = true ∧ ∃ pre, cs = pre ++ '/' :: d := by
  induction cs with
  | nil =>
    simp only [locIdScan]
    constructor
    · intro h; exact absurd h (by simp)
    · rintro ⟨-, -, pre, hpre⟩
      exact absurd hpre.symm (by simp)
  | cons c rest ih =>
    by_cases h : c = '/' ∧ rest ≠ [] ∧ rest.all Char.isDigit
    · rw [locIdScan, if_pos h]
      obtain ⟨hc, hne, hall⟩ := h
      subst hc
      constructor
      · intro h'
        injection h' with h'
        subst h'
        exact ⟨hne, hall, [], rfl⟩
      · rintro ⟨hdne, hdall, pre, hpre⟩
        cases pre with
        | nil =>
          injection hpre with h1 h2
          rw [h2]
        | cons p ps =>
          injection hpre with h1 h2
          exfalso
          have hmem : '/' ∈ rest := by
            rw [h2]; exact List.mem_append.mpr (Or.inr (List.mem_cons_self _ _))
          have := List.all_eq_true.mp hall _ hmem
          exact absurd this (by decide)
    · rw [locIdScan, if_neg h, ih]
      constructor
      · rintro ⟨hdne, hdall, pre, hpre⟩
        exact ⟨hdne, hdall, c :: pre, by rw [List.cons_append, hpre]⟩
      · rintro ⟨hdne, hdall, pre, hpre⟩
        cases pre with
        | nil =>
          injection hpre with h1 h2
          exact absurd ⟨h1, by rw [h2]; exact hdne, by rw [h2]; exact hdall⟩ h
        | cons p ps =>
          injection hpre with h1 h2
          exact ⟨hdne, hdall, ps, h2⟩

/-- C4 amended: `locationId` is the trailing run of digits only when it
is immediately preceded by a `/` (i.e. the final path segment is a
nonempty all-digit run); otherwise — including URLs that end in digits
not preceded by `/` — it is null.  The two examples of the claim are
unchanged. -/
theorem C4_amended_loc_id_characterization :
    (∀ url s : String, locIdOf url = some s ↔
      s ≠ "" ∧ s.toList.all Char.isDigit = true ∧
        ∃ pre, url.toList = pre ++ '/' :: s.toList) ∧
    locIdOf "https://example.com/stores/00042" = some "00042" ∧
    locIdOf "https://example.com/stores/" = none := by
  refine ⟨fun url s => ?_, rfl, rfl⟩
  have key : locIdOf url = some s ↔ locIdScan url.toList = some s.toList := by
    unfold locIdOf
    constructor
    · intro h
      obtain ⟨d, hd, hmk⟩ := Option.map_eq_some'.mp h
      subst hmk
      exact hd
    · intro h
      rw [h]
      rfl
  rw [key, locIdScan_eq_some_iff]
  have hnil : s.toList = [] ↔ s = "" := by
    constructor
    · intro h
      cases s with
      | mk data => exact congrArg String.mk h
    · intro h
      rw [h]
      rfl
  exact and_congr (not_congr hnil) Iff.rfl

/-- C4 witness: the amended characterization applied at a concrete URL,
in the forward and backward directions. -/
theorem C4_amended_witness :
    locIdOf "https://x/stores/7" = some "7" ∧
    locIdOf "https://example.com/stores/00042" = some "00042" := by
  refine ⟨?_, C4_amended_loc_id_characterization.2.1⟩
  exact (C4_amended_loc_id_characterization.1 "https://x/stores/7" "7").mpr
    ⟨by decide, by decide, "https://x/stores".toList, by decide⟩

/-! ### C5 -/

/-- C5: with a record produced and no address block in the page, all four
address sub-fields are null (no fallback search outside the block), and
the remaining fields are exactly the outputs of their own extraction
rules. -/
theorem C5_no_address_block_nulls (html url : String) (r : StoreRecord)
    (h : storeFromHtml html url = some r) (hab : addrBlockOf html = none) :
    r.address1 = none ∧ r.address2 = none ∧ r.address3 = none ∧
    r.city = none ∧ r.state = none ∧ r.postcode = none ∧
    r.phoneNumber = phoneOf html ∧ r.tradingHours = tradingHoursOf html ∧
    r.locationId = locIdOf url ∧ r.url = url := by
  obtain ⟨nm, la, lo, hpn, hnm, hla, hlo, hsr, hr⟩ := storeFromHtml_inv html url r h
  subst hr
  refine ⟨rfl, rfl, rfl, ?_, ?_, ?_, rfl, rfl, rfl, rfl⟩
  · show cityFieldOf html = none
    simp [cityFieldOf, hab]
  · show stateFieldOf html = none
    simp [stateFieldOf, hab]
  · show postcodeFieldOf html = none
    simp [postcodeFieldOf, hab]

/-- A page with a derivable name, a phone, no address block, and a stray
`addressLocality` span outside any address element. -/
def c5Html : String :=
  "<h4 class=\"store-heading\">Target â€“ Fitzroy</h4><span itemprop=\"addressLocality\">Fitzroy North</span><span itemprop=\"telephone\">1300 753 567</span>"

/-- Source URL for `c5Html`. -/
def c5Url : String := "https://x/stores/0011"

/-- The record extracted from `c5Html`. -/
def c5Rec : StoreRecord := mkStore c5Html c5Url "Fitzroy" none none

/-- C5 witness: the theorem at `c5Html`, whose stray locality span is
indeed not picked up because there is no address block. -/
theorem C5_witness :
    storeFromHtml c5Html c5Url = some c5Rec ∧ addrBlockOf c5Html = none ∧
    c5Rec.city = none ∧ c5Rec.state = none ∧ c5Rec.postcode = none ∧
    c5Rec.phoneNumber = some "1300 753 567" := by
  have h1 : storeFromHtml c5Html c5Url = some c5Rec := by decide
  have h2 : addrBlockOf c5Html = none := by decide
  have hmain := C5_no_address_block_nulls c5Html c5Url c5Rec h1 h2
  refine ⟨h1, h2, hmain.2.2.2.1, hmain.2.2.2.2.1, hmain.2.2.2.2.2.1, ?_⟩
  rw [hmain.2.2.2.2.2.2.1]
  decide

/-! ### C6 -/

/-- C6: a produced record's `tradingHours` is exactly one entry per
`findall` day/hours pair of the hours block, in page order and through
the upper-case/trim transformation; when the block is absent or yields no
pairs the list is empty (it is never null: the field's type is a list). -/
theorem C6_trading_hours_shape (html url : String) (r : StoreRecord)
    (h : storeFromHtml html url = some r) :
    r.tradingHours = (pairsOf html).map mkTradingHour ∧
    (hoursBlockOf html = none → r.tradingHours = []) ∧
    (pairsOf html = [] → r.tradingHours = []) := by
  obtain ⟨nm, la, lo, hpn, hnm, hla, hlo, hsr, hr⟩ := storeFromHtml_inv html url r h
  subst hr
  refine ⟨rfl, ?_, ?_⟩
  · intro hb
    show tradingHoursOf html = []
    simp [tradingHoursOf, pairsOf, hb]
  · intro hp
    show tradingHoursOf html = []
    simp [tradingHoursOf, hp]

/-- C6 witness: `exStore` lists Wednesday before a lower-case `mon`; the
emitted entries preserve that page order, upper-case the day and trim the
hours text. -/
theorem C6_witness :
    storeFromHtml exStore exUrl = some exRec ∧
    exRec.tradingHours =
      [⟨"TradingHour", "9am - 5pm", "WEDNESDAY"⟩, ⟨"TradingHour", "closed", "MON"⟩] := by
  refine ⟨exStore_eval, ?_⟩
  rw [(C6_trading_hours_shape exStore exUrl exRec exStore_eval).1]
  decide

/-! ### C9 -/

/-- Inversion for the conversion of a present attribute text: the stored
value is exactly `float(s)` (null for the falsy empty string). -/
theorem pyFloatField_ok_of_some {s : String} {v : Option PyFloat}
    (h : pyFloatField (some s) = Except.ok v) : v = parsePyFloat s := by
  by_cases hse : s = ""
  · subst hse
    simp [pyFloatField] at h
    rw [← h]
    rfl
  · simp only [pyFloatField, if_neg hse] at h
    cases hps : parsePyFloat s with
    | none => rw [hps] at h; simp at h
    | some w => rw [hps] at h; simp at h; rw [h]

/-- Inversion for the conversion of an absent attribute. -/
theorem pyFloatField_ok_of_none {v : Option PyFloat}
    (h : pyFloatField none = Except.ok v) : v = none := by
  simp [pyFloatField] at h
  exact h.symm

/-- C9: in a produced record the two coordinates are independent, in
either orientation: whichever coordinate attribute is present (as text
`s`) while the other is entirely absent, the record carries `float(s)`
(null for the empty string) for the present one and null for the absent
one. -/
theorem C9_independent_coordinates (html url : String) (r : StoreRecord) (s : String)
    (h : storeFromHtml html url = some r) :
    (latOf html = some s → lngOf html = none →
      r.latitude = parsePyFloat s ∧ r.longitude = none) ∧
    (lngOf html = some s → latOf html = none →
      r.longitude = parsePyFloat s ∧ r.latitude = none) := by
  obtain ⟨nm, la, lo, hpn, hnm, hla, hlo, hsr, hr⟩ := storeFromHtml_inv html url r h
  subst hr
  constructor
  · intro hl hn
    rw [hl] at hla
    rw [hn] at hlo
    exact ⟨pyFloatField_ok_of_some hla, pyFloatField_ok_of_none hlo⟩
  · intro hl hn
    rw [hl] at hlo
    rw [hn] at hla
    exact ⟨pyFloatField_ok_of_some hlo, pyFloatField_ok_of_none hla⟩

/-- A page with `data-lat` present and numeric and no `data-lng` at all. -/
def c9Html : String :=
  "<h4 class=\"store-heading\">Target â€“ Geelong</h4><div data-lat=\"-33.87\" class=\"map\"></div>"

/-- Source URL for `c9Html`. -/
def c9Url : String := "https://x/stores/0907"

/-- The record extracted from `c9Html`. -/
def c9Rec : StoreRecord :=
  mkStore c9Html c9Url "Geelong" (some (PyFloat.finite (mkRat (-3387) 100))) none

/-- A page with `data-lng` present and numeric and no `data-lat` at all. -/
def c9bHtml : String :=
  "<h4 class=\"store-heading\">Target â€“ Hobart</h4><div data-lng=\"147.32\" class=\"map\"></div>"

/-- Source URL for `c9bHtml`. -/
def c9bUrl : String := "https://x/stores/0918"

/-- The record extracted from `c9bHtml`. -/
def c9bRec : StoreRecord :=
  mkStore c9bHtml c9bUrl "Hobart" none (some (PyFloat.finite (mkRat 14732 100)))

/-- C9 witness, both orientations: `data-lat="-33.87"` with no
`data-lng` yields latitude -33.87 and longitude null, and
`data-lng="147.32"` with no `data-lat` yields longitude 147.32 and
latitude null. -/
theorem C9_witness :
    storeFromHtml c9Html c9Url = some c9Rec ∧ latOf c9Html = some "-33.87" ∧
    lngOf c9Html = none ∧
    c9Rec.latitude = some (PyFloat.finite (mkRat (-3387) 100)) ∧
    c9Rec.longitude = none ∧
    storeFromHtml c9bHtml c9bUrl = some c9bRec ∧ lngOf c9bHtml = some "147.32" ∧
    latOf c9bHtml = none ∧
    c9bRec.longitude = some (PyFloat.finite (mkRat 14732 100)) ∧
    c9bRec.latitude = none := by
  have h1 : storeFromHtml c9Html c9Url = some c9Rec := by decide
  have h2 : latOf c9Html = some "-33.87" := by decide
  have h3 : lngOf c9Html = none := by decide
  have hmain := (C9_independent_coordinates c9Html c9Url c9Rec "-33.87" h1).1 h2 h3
  have g1 : storeFromHtml c9bHtml c9bUrl = some c9bRec := by decide
  have g2 : lngOf c9bHtml = some "147.32" := by decide
  have g3 : latOf c9bHtml = none := by decide
  have gmain := (C9_independent_coordinates c9bHtml c9bUrl c9bRec "147.32" g1).2 g2 g3
  exact ⟨h1, h2, h3, hmain.1.trans (by decide), hmain.2,
    g1, g2, g3, gmain.1.trans (by decide), gmain.2⟩

/-! ### C10 -/

/-- C10: a record is only emitted with a non-empty `publicName`, and a
heading capture that cleans to the empty string (`some ""`) makes the
whole extraction return not-found, because Python's `not public_name` is
true for the empty string. -/
theorem C10_no_empty_public_name :
    (∀ html url : String, ∀ r : StoreRecord,
      storeFromHtml html url = some r → r.publicName ≠ "") ∧
    (∀ html url : String, pubNameOf html = some "" → storeFromHtml html url = none) := by
  constructor
  · intro html url r h
    obtain ⟨nm, la, lo, hpn, hnm, hla, hlo, hsr, hr⟩ := storeFromHtml_inv html url r h
    subst hr
    exact hnm
  · intro html url hpn
    unfold storeFromHtml
    cases hs : streetRaises html with
    | true => simp
    | false =>
      simp only [Bool.false_eq_true, if_false]
      rw [hpn]
      dsimp only
      rw [if_pos rfl]

/-- A page whose heading matches the pattern but whose capture is only
markup and whitespace, cleaning to the empty string. -/
def c10Html : String :=
  "<h4 class=\"store-heading\">Target â€“ <b> </b></h4><span itemprop=\"telephone\">123</span>"

/-- C10 witness: both directions at concrete pages — the markup-only
capture is rejected, and the record produced from `exStore` carries a
non-empty name. -/
theorem C10_witness :
    pubNameOf c10Html = some "" ∧ storeFromHtml c10Html "https://x/stores/1" = none ∧
    exRec.publicName ≠ "" := by
  have h1 : pubNameOf c10Html = some "" := by decide
  exact ⟨h1, C10_no_empty_public_name.2 c10Html "https://x/stores/1" h1,
    C10_no_empty_public_name.1 exStore exUrl exRec exStore_eval⟩

/-! ### C8 -/

/-- C8: any sitemap parse error yields the empty URL list instead of
raising; a missing sitemap file makes the program exit with status 1
before any fetch; an existing file whose parse fails still lets the run
complete normally (exit 0) with an empty output document. -/
theorem C8_sitemap_error_policy :
    (∀ e : String, extract_urls_from_sitemap (Except.error e) = []) ∧
    (∀ env : Env, env.fileExists = false → runMain env = ⟨1, [], none, []⟩) ∧
    (∀ (env : Env) (e : String), env.fileExists = true → env.parse = Except.error e →
      runMain env = ⟨0, [], some [], []⟩) := by
  refine ⟨fun e => rfl, ?_, ?_⟩
  · intro env h
    unfold runMain
    rw [h]
    rfl
  · intro env e h hp
    unfold runMain
    rw [h, hp]
    rfl

/-- C8 witness: the three components at concrete environments. -/
theorem C8_witness :
    extract_urls_from_sitemap (Except.error "malformed XML") = [] ∧
    runMain ⟨false, Except.ok ["https://x/stores/1"], fun _ => none⟩ = ⟨1, [], none, []⟩ ∧
    runMain ⟨true, Except.error "not well-formed", fun _ => none⟩ = ⟨0, [], some [], []⟩ := by
  exact ⟨C8_sitemap_error_policy.1 "malformed XML",
    C8_sitemap_error_policy.2.1 ⟨false, Except.ok ["https://x/stores/1"], fun _ => none⟩ rfl,
    C8_sitemap_error_policy.2.2 ⟨true, Except.error "not well-formed", fun _ => none⟩
      "not well-formed" rfl rfl⟩

/-! ### C7 -/

/-- No two adjacent characters are both plain spaces. -/
def noDoubleSpace : List Char → Bool
  | [] => true
  | [_] => true
  | a :: b :: rest => !(a = ' ' && b = ' ') && noDoubleSpace (b :: rest)

/-- The claim's notion of an already-clean string: no substring matching
the tag pattern, every whitespace character is a plain single space with
no two adjacent, and no leading or trailing whitespace. -/
def isCleanText (cs : List Char) : Bool :=
  !hasTag cs && cs.all (fun c => !pyIsSpace c || c = ' ') && noDoubleSpace cs &&
    (cs.head? != some ' ') && (cs.getLast? != some ' ')

theorem takeWhile_append_all {p : Char → Bool} {xs ys : List Char}
    (h : ∀ x ∈ xs, p x = true) :
    (xs ++ ys).takeWhile p = xs ++ ys.takeWhile p := by
  induction xs with
  | nil => rfl
  | cons a as ih =>
    have ha := h a (List.mem_cons_self a as)
    simp only [List.cons_append, List.takeWhile_cons, ha, if_true]
    rw [ih fun x hx => h x (List.mem_cons_of_mem a hx)]

theorem findIdx?_isSome_of_mem {p : Char → Bool} {l : List Char} {a : Char}
    (ha : a ∈ l) (hp : p a = true) : ∀ i, (l.findIdx? p i).isSome = true := by
  induction l with
  | nil => cases ha
  | cons b bs ih =>
    intro i
    rw [List.findIdx?_cons]
    cases hb : p b with
    | true => rfl
    | false =>
      rcases List.mem_cons.mp ha with rfl | hmem
      · rw [hp] at hb; cases hb
      · simp only [hb, Bool.false_eq_true, if_false]
        exact ih hmem (i + 1)

theorem hasTag_append_false {xs ys : List Char} (h : hasTag (xs ++ ys) = false) :
    hasTag ys = false := by
  induction xs with
  | nil => exact h
  | cons a as ih =>
    rw [List.cons_append] at h
    rw [hasTag, Bool.or_eq_false_iff] at h
    exact ih h.2

theorem removeTagsAux_clean (cs : List Char) :
    (hasTag cs = false → removeTagsAux none cs = cs) ∧
    (∀ buf : List Char, (∀ b ∈ buf, b ≠ '<') →
      hasTag ('<' :: (buf.reverse ++ cs)) = false →
      removeTagsAux (some buf) cs = '<' :: (buf.reverse ++ cs)) := by
  induction cs with
  | nil =>
    refine ⟨fun _ => rfl, fun buf hb hn => ?_⟩
    simp [removeTagsAux]
  | cons c rest ih =>
    constructor
    · intro hn
      have hn' : hasTag rest = false := by
        rw [hasTag, Bool.or_eq_false_iff] at hn
        exact hn.2
      by_cases hc : c = '<'
      · subst hc
        rw [removeTagsAux, if_pos rfl]
        have := ih.2 [] (by simp) (by simpa using hn)
        simpa using this
      · rw [removeTagsAux, if_neg hc, ih.1 hn']
    · intro buf hb hn
      by_cases hc : c = '<'
      · subst hc
        rw [removeTagsAux, if_pos rfl]
        have hsuffix : hasTag ('<' :: (List.reverse ([] : List Char) ++ rest)) = false := by
          have hbig : '<' :: (buf.reverse ++ '<' :: rest) =
              ('<' :: buf.reverse) ++ ('<' :: rest) := by simp
          rw [hbig] at hn
          simpa using hasTag_append_false hn
        rw [ih.2 [] (by simp) hsuffix]
        simp
      · by_cases hgt : c = '>' ∧ buf ≠ []
        · exfalso
          obtain ⟨hcgt, hbne⟩ := hgt
          subst hcgt
          obtain ⟨b0, bs, hbr⟩ : ∃ b0 bs, buf.reverse = b0 :: bs := by
            cases hbrv : buf.reverse with
            | nil => exact absurd (List.reverse_eq_nil_iff.mp hbrv) hbne
            | cons b0 bs => exact ⟨b0, bs, rfl⟩
          have htw : (buf.reverse ++ '>' :: rest).takeWhile (fun x => decide (x ≠ '<')) =
              buf.reverse ++ ('>' :: rest).takeWhile (fun x => decide (x ≠ '<')) := by
            apply takeWhile_append_all
            intro x hx
            exact decide_eq_true_eq.mpr (hb x (List.mem_reverse.mp hx))
          have htag : tagAtHead ('<' :: (buf.reverse ++ '>' :: rest)) = true := by
            rw [tagAtHead]
            rw [htw]
            rw [List.takeWhile_cons, if_pos (by decide)]
            rw [hbr]
            rw [List.cons_append, List.drop_succ_cons, List.drop_zero]
            exact findIdx?_isSome_of_mem
              (List.mem_append.mpr (Or.inr (List.mem_cons_self _ _))) (by decide) 0
          rw [hasTag, htag] at hn
          simp at hn
        · rw [removeTagsAux, if_neg hc, if_neg hgt]
          have hbc : ∀ b ∈ (c :: buf), b ≠ '<' := by
            intro b hbmem
            rcases List.mem_cons.mp hbmem with rfl | hmem
            · exact hc
            · exact hb b hmem
          have hnn : hasTag ('<' :: ((c :: buf).reverse ++ rest)) = false := by
            simpa [List.reverse_cons, List.append_assoc] using hn
          rw [ih.2 (c :: buf) hbc hnn]
          simp [List.reverse_cons, List.append_assoc]

theorem removeTags_eq_self {cs : List Char} (h : hasTag cs = false) :
    removeTags cs = cs :=
  (removeTagsAux_clean cs).1 h

theorem dropWhile_eq_self_of_head {p : Char → Bool} {cs : List Char}
    (h : ∀ c, cs.head? = some c → p c = false) : cs.dropWhile p = cs := by
  cases cs with
  | nil => rfl
  | cons a l =>
    have := h a rfl
    simp [List.dropWhile_cons, this]

theorem pyStrip_eq_self {cs : List Char}
    (h1 : ∀ c, cs.head? = some c → pyIsSpace c = false)
    (h2 : ∀ c, cs.getLast? = some c → pyIsSpace c = false) : pyStrip cs = cs := by
  unfold pyStrip
  rw [dropWhile_eq_self_of_head h1]
  rw [dropWhile_eq_self_of_head fun c hc => h2 c (by rwa [← List.head?_reverse])]
  exact List.reverse_reverse cs

theorem collapseAux_eq_self (cs : List Char)
    (hws : ∀ c ∈ cs, pyIsSpace c = true → c = ' ')
    (hnd : noDoubleSpace cs = true) :
    collapseAux false cs = cs ∧ (cs.head? ≠ some ' ' → collapseAux true cs = cs) := by
  induction cs with
  | nil => exact ⟨rfl, fun _ => rfl⟩
  | cons c rest ih =>
    have hws' : ∀ x ∈ rest, pyIsSpace x = true → x = ' ' :=
      fun x hx => hws x (List.mem_cons_of_mem c hx)
    have hnd' : noDoubleSpace rest = true := by
      cases rest with
      | nil => rfl
      | cons b bs =>
        rw [noDoubleSpace, Bool.and_eq_true] at hnd
        exact hnd.2
    by_cases hc : pyIsSpace c = true
    · have hcsp : c = ' ' := hws c (List.mem_cons_self c rest) hc
      subst hcsp
      have hrh : rest.head? ≠ some ' ' := by
        cases rest with
        | nil => simp
        | cons b bs =>
          rw [noDoubleSpace, Bool.and_eq_true] at hnd
          intro hcon
          rw [List.head?_cons, Option.some.injEq] at hcon
          subst hcon
          simp at hnd
      constructor
      · rw [collapseAux, if_pos hc]
        simp only [Bool.false_eq_true, if_false]
        rw [(ih hws' hnd').2 hrh]
      · intro hh
        exact absurd rfl hh
    · have hcB : pyIsSpace c = false := by
        cases hcv : pyIsSpace c
        · rfl
        · exact absurd hcv hc
      constructor
      · rw [collapseAux, if_neg (by rw [hcB]; exact Bool.false_ne_true)]
        rw [(ih hws' hnd').1]
      · intro _
        rw [collapseAux, if_neg (by rw [hcB]; exact Bool.false_ne_true)]
        rw [(ih hws' hnd').1]

/-- C7: the text-cleaning of `extract_text` (strip tags, strip, collapse
whitespace) returns every already-clean string unchanged — no tag-shaped
substring, all whitespace single plain spaces, none leading or
trailing. -/
theorem C7_cleaning_fixes_clean_strings (cs : List Char)
    (h : isCleanText cs = true) : clean_html_text cs = cs := by
  unfold isCleanText at h
  rw [Bool.and_eq_true, Bool.and_eq_true, Bool.and_eq_true, Bool.and_eq_true] at h
  obtain ⟨⟨⟨⟨h1, h2⟩, h3⟩, h4⟩, h5⟩ := h
  have h1' : hasTag cs = false := by simpa using h1
  have h4' : cs.head? ≠ some ' ' := by simpa using h4
  have h5' : cs.getLast? ≠ some ' ' := by simpa using h5
  have hws : ∀ c ∈ cs, pyIsSpace c = true → c = ' ' := by
    intro c hmem hsp
    have := List.all_eq_true.mp h2 c hmem
    rw [hsp] at this
    simpa using this
  have hh : ∀ c, cs.head? = some c → pyIsSpace c = false := by
    intro c hc
    cases hsp : pyIsSpace c
    · rfl
    · exfalso
      have hmem : c ∈ cs := by
        cases cs with
        | nil => cases hc
        | cons a l =>
          have ha : a = c := by
            rw [List.head?_cons, Option.some.injEq] at hc
            exact hc
          rw [← ha]
          exact List.mem_cons_self a l
      exact h4' (by rw [hc, hws c hmem hsp])
  have hl : ∀ c, cs.getLast? = some c → pyIsSpace c = false := by
    intro c hc
    cases hsp : pyIsSpace c
    · rfl
    · exfalso
      have hmem : c ∈ cs := by
        have hrev : cs.reverse.head? = some c := by rw [List.head?_reverse]; exact hc
        have hmr : c ∈ cs.reverse := by
          cases hrw : cs.reverse with
          | nil => rw [hrw] at hrev; cases hrev
          | cons a l =>
            have ha : a = c := by
              rw [hrw, List.head?_cons, Option.some.injEq] at hrev
              exact hrev
            rw [← ha]
            exact List.mem_cons_self a l
        exact List.mem_reverse.mp hmr
      exact h5' (by rw [hc, hws c hmem hsp])
  unfold clean_html_text
  rw [removeTags_eq_self h1', pyStrip_eq_self hh hl]
  exact (collapseAux_eq_self cs hws h3).1

/-- C7 witness: the cleaning operation on a concrete already-clean
string. -/
theorem C7_witness :
    isCleanText "Chadstone VIC 3148".toList = true ∧
    clean_html_text "Chadstone VIC 3148".toList = "Chadstone VIC 3148".toList := by
  have h : isCleanText "Chadstone VIC 3148".toList = true := by decide
  exact ⟨h, C7_cleaning_fixes_clean_strings _ h⟩

end TargetStores
